import Mathlib

/-!
# Verification of the cocomo core layer (entry classification and tree flattening)

This file gives a shallow embedding of the `cocomo-core` modules `fsitem.rs`
and `dirtree.rs` and proves (or refutes) the specified properties of
`FSItem` classification, symlink resolution, type comparability and the
flattened directory-tree walk.

The filesystem is modelled as a structure of total functions giving, for each
path, the result of the four primitive operations the code performs:
`symlink_metadata` (stat), `read_link`, `detect_file` (content sniffing) and
`read_dir` (listing a directory's children).  Paths and names are strings;
media types are identified by their canonical MIME string (two media types
are equal iff those strings are equal).  Loops in the code that may not
terminate on a real filesystem (symlink following, recursive descent) are
embedded with an explicit fuel parameter; exhausting the fuel yields a
distinguished "diverge" outcome, so divergence of the source code is a
provable statement (divergence for every fuel bound).
-/

deriving instance DecidableEq for Except

namespace Cocomo

/-- Paths, as handed to the filesystem API (`std::path`). -/
abbrev FsPath := String

/-- A directory-entry name (`file_name()`). -/
abbrev Name := String

/-- A media type, identified by its canonical MIME string (`MimeType::mime()`). -/
abbrev MediaType := String

/-- The error categories of `std::io::ErrorKind` that the code can produce. -/
inductive ErrorKind where
  | notFound
  | permissionDenied
  | unsupported
  | ioError
deriving DecidableEq, Repr

/-- What a `symlink_metadata` call reports about an existing object:
`is_dir` / `is_file` / `is_symlink`, or some other object type (socket,
device, ...), which the code maps to an `Unsupported` error. -/
inductive StatKind where
  | dir
  | file
  | symlink
  | other
deriving DecidableEq, Repr

/-- The filesystem, modelled as the (fixed) results of the four primitive
operations `fsitem.rs` / `dirtree.rs` perform: `symlink_metadata`,
`fs::read_link`, `mimetype_detector::detect_file` and `fs::read_dir`.
A directory listing is a list of per-entry results, since the `ReadDir`
iterator yields `io::Result<DirEntry>` items. -/
structure FS where
  stat : FsPath → Except ErrorKind StatKind
  readLink : FsPath → Except ErrorKind FsPath
  detect : FsPath → Except ErrorKind MediaType
  listDir : FsPath → Except ErrorKind (List (Except ErrorKind Name))

/-- `INODE_DIR` from `fsitem.rs`. -/
def INODE_DIR : String := "inode/directory"

/-- The reserved media type `DIRECTORY` from `fsitem.rs`. -/
def DIRECTORY : MediaType := INODE_DIR

/-- `INODE_SYMLINK` from `fsitem.rs`. -/
def INODE_SYMLINK : String := "inode/symlink"

/-- The reserved media type `SYMLINK` from `fsitem.rs`. -/
def SYMLINK : MediaType := INODE_SYMLINK

/-- `INVALID_MIME` from `fsitem.rs`. -/
def INVALID_MIME : String := "<invalid>"

/-- The reserved media type `INVALID` from `fsitem.rs`. -/
def INVALID : MediaType := INVALID_MIME

/-- `FSItemType` from `fsitem.rs`: the logical type of a filesystem entry. -/
inductive FSItemType where
  | directory
  | file (file_type : MediaType)
  | symLink (target : FsPath)
  | invalid (cause : ErrorKind)
deriving DecidableEq, Repr

/-- `BROKEN_LINK` from `fsitem.rs`: a symlink with an empty target path,
used as the placeholder result when resolution fails. -/
def BROKEN_LINK : FSItemType := FSItemType.symLink ""

/-- `FSItemType::media_type`: the MIME type representing an item type. -/
def FSItemType.media_type : FSItemType → MediaType
  | FSItemType.directory => DIRECTORY
  | FSItemType.file ft => ft
  | FSItemType.symLink _ => SYMLINK
  | FSItemType.invalid _ => INVALID

/-- `Path::file_name()` combined with `to_string_lossy`: the last component
of a path (the text after the last separator). -/
def baseNameAux : List Char → List Char → List Char
  | [], acc => acc
  | c :: cs, acc => if c = '/' then baseNameAux cs [] else baseNameAux cs (acc ++ [c])

/-- The base name of a path, as stored in `FSItem.name`. -/
def baseName (p : FsPath) : String := String.mk (baseNameAux p.data [])

/-- `FSItem` from `fsitem.rs`.  The `fs::Metadata` snapshot is opaque to all
of the code's logic; only its presence (`Some`/`None`) is modelled. -/
structure FSItem where
  item_type : FSItemType
  name : String
  path : FsPath
  hasMetadata : Bool
deriving DecidableEq, Repr

/-- `FSItem::try_from_path`: classify `p` from one `symlink_metadata` read,
detecting the media type for regular files and reading the target for
symlinks; any failure is returned as an error. -/
def FSItem.try_from_path (fs : FS) (p : FsPath) : Except ErrorKind FSItem :=
  match fs.stat p with
  | Except.error e => Except.error e
  | Except.ok StatKind.dir =>
      Except.ok ⟨FSItemType.directory, baseName p, p, true⟩
  | Except.ok StatKind.file =>
      match fs.detect p with
      | Except.ok mt => Except.ok ⟨FSItemType.file mt, baseName p, p, true⟩
      | Except.error e => Except.error e
  | Except.ok StatKind.symlink =>
      match fs.readLink p with
      | Except.ok t => Except.ok ⟨FSItemType.symLink t, baseName p, p, true⟩
      | Except.error e => Except.error e
  | Except.ok StatKind.other => Except.error ErrorKind.unsupported

/-- `FSItem::new`: infallible classification; an error from `try_from_path`
is captured as an `Invalid` item with the error's kind as cause and no
metadata snapshot. -/
def FSItem.new (fs : FS) (p : FsPath) : FSItem :=
  match FSItem.try_from_path fs p with
  | Except.ok item => item
  | Except.error e => ⟨FSItemType.invalid e, baseName p, p, false⟩

/-- The symlink-following loop inside `FSItem::unlink`:
`while let Ok(link_target) = fs::read_link(&current_path)` — follow link
targets while `read_link` succeeds.  `fuel` bounds the number of loop
iterations inspected; `none` means the loop has not terminated within
`fuel` steps. -/
def followLinks (fs : FS) : Nat → FsPath → Option FsPath
  | 0, _ => none
  | n + 1, p =>
      match fs.readLink p with
      | Except.ok t => followLinks fs n t
      | Except.error _ => some p

/-- `FSItem::unlink`: for a symlink, follow targets transitively while
`read_link` succeeds, then re-classify the final path via `try_from_path`;
for every other item, return a clone of the item itself.  `none` means the
following loop diverges (never happens within `fuel` hops). -/
def FSItem.unlink (fs : FS) (fuel : Nat) (it : FSItem) :
    Option (Except ErrorKind FSItem) :=
  match it.item_type with
  | FSItemType.symLink target =>
      match followLinks fs fuel target with
      | some q => some (FSItem.try_from_path fs q)
      | none => none
  | _ => some (Except.ok it)

/-- `FSItem::final_item_type`: the resolved logical type — the item's own
type for non-symlinks, the unlinked target's type for symlinks, and the
`BROKEN_LINK` placeholder when unlinking fails. -/
def FSItem.final_item_type (fs : FS) (fuel : Nat) (it : FSItem) :
    Option FSItemType :=
  match it.item_type with
  | FSItemType.symLink _ =>
      match FSItem.unlink fs fuel it with
      | some (Except.ok item) => some item.item_type
      | some (Except.error _) => some BROKEN_LINK
      | none => none
  | t => some t

/-- `FSItem::new(path).final_item_type()` as used by `comparable`'s symlink
arms: the resolved type of the object a symlink target designates. -/
def resolveTargetType (fs : FS) (lf : Nat) (p : FsPath) : Option FSItemType :=
  FSItem.final_item_type fs lf (FSItem.new fs p)

/-- `FSItemType::comparable`.  `lf` is the fuel given to each inner symlink
resolution, `n` the fuel for `comparable`'s own recursion through symlink
arms; `none` means the source code's recursion does not produce an answer
within the given bounds. -/
def FSItemType.comparable (fs : FS) (lf : Nat) :
    Nat → FSItemType → FSItemType → Option Bool
  | 0, _, _ => none
  | n + 1, a, b =>
      match a, b with
      | FSItemType.directory, FSItemType.directory => some true
      | FSItemType.file mt1, FSItemType.file mt2 => some (mt1 == mt2)
      | FSItemType.symLink p, other =>
          match resolveTargetType fs lf p with
          | some r => FSItemType.comparable fs lf n r other
          | none => none
      | other, FSItemType.symLink p =>
          match resolveTargetType fs lf p with
          | some r => FSItemType.comparable fs lf n r other
          | none => none
      | _, _ => some false

/-! ## The tree flattener (`dirtree.rs`) -/

/-- The byte sequence of a name, as `sort_unstable_by_key(|e| e.file_name())`
compares `OsString` keys: bytewise (codepoints, for valid UTF-8). -/
def byteKey (s : Name) : List Nat := s.data.map Char.toNat

/-- Bytewise lexicographic strict order on byte sequences. -/
def byteLtB : List Nat → List Nat → Bool
  | [], [] => false
  | [], _ :: _ => true
  | _ :: _, [] => false
  | a :: as, b :: bs => if a < b then true else if b < a then false else byteLtB as bs

/-- The total, locale-independent byte order on names under which the
flattener sorts a directory's children: `x ≤ y` iff `y`'s bytes are not
strictly below `x`'s. -/
def nameLe (x y : Name) : Prop := byteLtB (byteKey y) (byteKey x) = false

instance : DecidableRel nameLe := fun _ _ => inferInstanceAs (Decidable (_ = false))

/-- `child_entries.sort_unstable_by_key(|entry| entry.file_name())`: the
children of a directory, sorted by name under the byte order. -/
def sortedChildNames (names : List Name) : List Name :=
  List.insertionSort nameLe names

/-- `Path::join`: the path of a directory entry, `dir` joined with the
entry's name. -/
def childPath (dir : FsPath) (n : Name) : FsPath := dir ++ "/" ++ n

/-- `.map(|r| r.expect("Error reading directory entry.")).collect()`: collect
the per-entry results of a `ReadDir` iterator; `none` models the `expect`
panic on the first erroneous entry. -/
def collectEntries : List (Except ErrorKind Name) → Option (List Name)
  | [] => some []
  | Except.ok n :: rest => (collectEntries rest).map (n :: ·)
  | Except.error _ :: _ => none

/-- The possible outcomes of running `read_dir` / `FlattenedDirTree::new`:
a value, an `io::Result` error (`?`), a panic (`expect`), or divergence
(the recursion exceeds the inspected fuel). -/
inductive ROutcome (α : Type) where
  | ok (val : α)
  | err (e : ErrorKind)
  | panic
  | diverge
deriving DecidableEq, Repr

/-- The body of `read_dir`'s `for` loop over the sorted children: classify
each child with the fallible `FSItem::try_from` (propagating its error with
`?`), append `(level, item)`, and, for directories, append the recursive
flattening of the child (through `rec`, the recursion at the next fuel
level) before continuing with the remaining siblings. -/
def processChildren (fs : FS) (rec : Nat → FsPath → ROutcome (List (Nat × FSItem)))
    (level : Nat) (dir : FsPath) : List Name → ROutcome (List (Nat × FSItem))
  | [] => ROutcome.ok []
  | n :: rest =>
      match FSItem.try_from_path fs (childPath dir n) with
      | Except.error e => ROutcome.err e
      | Except.ok item =>
          if item.item_type = FSItemType.directory then
            match rec (level + 1) (childPath dir n) with
            | ROutcome.ok sub =>
                match processChildren fs rec level dir rest with
                | ROutcome.ok tail => ROutcome.ok ((level, item) :: sub ++ tail)
                | r => r
            | ROutcome.err e => ROutcome.err e
            | ROutcome.panic => ROutcome.panic
            | ROutcome.diverge => ROutcome.diverge
          else
            match processChildren fs rec level dir rest with
            | ROutcome.ok tail => ROutcome.ok ((level, item) :: tail)
            | r => r

/-- `read_dir` from `dirtree.rs`: list the directory (propagating a listing
error with `?`, panicking on a per-entry iteration error), sort the children
by name, and process them in order, recursing into subdirectories at
`level + 1`.  `fuel` bounds the recursion depth inspected; `diverge` means
no result is produced within that bound. -/
def read_dir (fs : FS) : Nat → Nat → FsPath → ROutcome (List (Nat × FSItem))
  | 0, _, _ => ROutcome.diverge
  | fuel + 1, level, path =>
      match fs.listDir path with
      | Except.error e => ROutcome.err e
      | Except.ok res =>
          match collectEntries res with
          | none => ROutcome.panic
          | some names =>
              processChildren fs (read_dir fs fuel) level path (sortedChildNames names)

/-- `FlattenedDirTree` from `dirtree.rs`. -/
structure FlattenedDirTree where
  root : FsPath
  items : List (Nat × FSItem)
deriving DecidableEq, Repr

/-- `FlattenedDirTree::new`: flatten the subtree under `root`, starting the
walk of the root's direct children at level 0. -/
def FlattenedDirTree.new (fs : FS) (fuel : Nat) (root : FsPath) :
    ROutcome FlattenedDirTree :=
  match read_dir fs fuel 0 root with
  | ROutcome.ok items => ROutcome.ok ⟨root, items⟩
  | ROutcome.err e => ROutcome.err e
  | ROutcome.panic => ROutcome.panic
  | ROutcome.diverge => ROutcome.diverge

/-! ## The spec-side traversal shape

`PreorderFlattening` is the refinement-side counterpart of `read_dir`,
written after the specification's description of the flattening algorithm:
each directory's children are taken from the listing, sorted by name, and
emitted in order, with every entry at depth `level` and every child that
classifies as a directory immediately followed by its own flattening at
depth `level + 1`, after which the remaining siblings continue at depth
`level`. -/

mutual

/-- Modelled from the spec: `items` is the interleaved pre-order flattening
of the subtree under `path`, its direct children at depth `level`. -/
inductive PreorderFlattening (fs : FS) : Nat → FsPath → List (Nat × FSItem) → Prop where
  | mk (level : Nat) (path : FsPath) (res : List (Except ErrorKind Name))
      (names : List Name) (items : List (Nat × FSItem)) :
      fs.listDir path = Except.ok res →
      collectEntries res = some names →
      ChildrenFlattening fs level path (sortedChildNames names) items →
      PreorderFlattening fs level path items

/-- Modelled from the spec: `items` is the flattening contributed by the
(already sorted) children `names` of directory `path`: each child appears
as `(level, entry)`, a directory child immediately followed by its own
flattening at `level + 1`, then the remaining siblings back at `level`. -/
inductive ChildrenFlattening (fs : FS) : Nat → FsPath → List Name → List (Nat × FSItem) → Prop where
  | nil (level : Nat) (path : FsPath) : ChildrenFlattening fs level path [] []
  | dirChild (level : Nat) (path : FsPath) (n : Name) (rest : List Name)
      (item : FSItem) (sub tail : List (Nat × FSItem)) :
      FSItem.try_from_path fs (childPath path n) = Except.ok item →
      item.item_type = FSItemType.directory →
      PreorderFlattening fs (level + 1) (childPath path n) sub →
      ChildrenFlattening fs level path rest tail →
      ChildrenFlattening fs level path (n :: rest) ((level, item) :: sub ++ tail)
  | leafChild (level : Nat) (path : FsPath) (n : Name) (rest : List Name)
      (item : FSItem) (tail : List (Nat × FSItem)) :
      FSItem.try_from_path fs (childPath path n) = Except.ok item →
      item.item_type ≠ FSItemType.directory →
      ChildrenFlattening fs level path rest tail →
      ChildrenFlattening fs level path (n :: rest) ((level, item) :: tail)

end

/-! ## Concrete filesystems used as witnesses and counterexamples -/

/-- A cyclic pair of symlinks: `linkA → linkB → linkA`. -/
def cycFS : FS where
  stat := fun p =>
    if p = "linkA" ∨ p = "linkB" then Except.ok StatKind.symlink
    else Except.error ErrorKind.notFound
  readLink := fun p =>
    if p = "linkA" then Except.ok "linkB"
    else if p = "linkB" then Except.ok "linkA"
    else Except.error ErrorKind.ioError
  detect := fun _ => Except.error ErrorKind.ioError
  listDir := fun _ => Except.error ErrorKind.notFound

/-- A root directory `r` with two children: `r/a`, whose classification
fails with a permission error, and `r/b`, a readable text file. -/
def fs2 : FS where
  stat := fun p =>
    if p = "r" then Except.ok StatKind.dir
    else if p = "r/a" then Except.error ErrorKind.permissionDenied
    else if p = "r/b" then Except.ok StatKind.file
    else Except.error ErrorKind.notFound
  readLink := fun _ => Except.error ErrorKind.ioError
  detect := fun p =>
    if p = "r/b" then Except.ok "text/plain" else Except.error ErrorKind.ioError
  listDir := fun p =>
    if p = "r" then Except.ok [Except.ok "a", Except.ok "b"]
    else Except.error ErrorKind.notFound

/-- A filesystem with one regular file `f`; every other path is missing. -/
def fs3 : FS where
  stat := fun p =>
    if p = "f" then Except.ok StatKind.file else Except.error ErrorKind.notFound
  readLink := fun _ => Except.error ErrorKind.ioError
  detect := fun p =>
    if p = "f" then Except.ok "text/plain" else Except.error ErrorKind.ioError
  listDir := fun _ => Except.error ErrorKind.notFound

/-- A two-level tree: directory `r` with subdirectory `r/a` (containing the
file `r/a/x`) and file `r/b`; the listing of `r` is deliberately unsorted. -/
def fs4 : FS where
  stat := fun p =>
    if p = "r/a" then Except.ok StatKind.dir
    else if p = "r/b" ∨ p = "r/a/x" then Except.ok StatKind.file
    else Except.error ErrorKind.notFound
  readLink := fun _ => Except.error ErrorKind.ioError
  detect := fun p =>
    if p = "r/b" ∨ p = "r/a/x" then Except.ok "text/plain"
    else Except.error ErrorKind.ioError
  listDir := fun p =>
    if p = "r" then Except.ok [Except.ok "b", Except.ok "a"]
    else if p = "r/a" then Except.ok [Except.ok "x"]
    else Except.error ErrorKind.notFound

/-- A directory `r` whose listing yields the mixed-case names
`["b", "a", "C"]`, each a readable text file. -/
def fs5 : FS where
  stat := fun p =>
    if p = "r/a" ∨ p = "r/b" ∨ p = "r/C" then Except.ok StatKind.file
    else Except.error ErrorKind.notFound
  readLink := fun _ => Except.error ErrorKind.ioError
  detect := fun p =>
    if p = "r/a" ∨ p = "r/b" ∨ p = "r/C" then Except.ok "text/plain"
    else Except.error ErrorKind.ioError
  listDir := fun p =>
    if p = "r" then Except.ok [Except.ok "b", Except.ok "a", Except.ok "C"]
    else Except.error ErrorKind.notFound

/-- A filesystem with a broken symlink `loop → gone` where `gone` does not
exist; the empty path does not exist either. -/
def fs6 : FS where
  stat := fun p =>
    if p = "loop" then Except.ok StatKind.symlink
    else Except.error ErrorKind.notFound
  readLink := fun p =>
    if p = "loop" then Except.ok "gone" else Except.error ErrorKind.ioError
  detect := fun _ => Except.error ErrorKind.ioError
  listDir := fun _ => Except.error ErrorKind.notFound

/-- A chain `link1 → link2 → file.txt` ending at a regular text file. -/
def fs7 : FS where
  stat := fun p =>
    if p = "link1" ∨ p = "link2" then Except.ok StatKind.symlink
    else if p = "file.txt" then Except.ok StatKind.file
    else Except.error ErrorKind.notFound
  readLink := fun p =>
    if p = "link1" then Except.ok "link2"
    else if p = "link2" then Except.ok "file.txt"
    else Except.error ErrorKind.ioError
  detect := fun p =>
    if p = "file.txt" then Except.ok "text/plain"
    else Except.error ErrorKind.ioError
  listDir := fun _ => Except.error ErrorKind.notFound

/-- A filesystem with one regular file `f` whose detected content type is
`text/plain`; the detector never reports an inode sentinel type. -/
def fs8 : FS where
  stat := fun p =>
    if p = "f" then Except.ok StatKind.file else Except.error ErrorKind.notFound
  readLink := fun _ => Except.error ErrorKind.ioError
  detect := fun _ => Except.ok "text/plain"
  listDir := fun _ => Except.error ErrorKind.notFound

/-- A directory `r` whose child-entry iterator yields one good entry and
then an I/O error mid-listing. -/
def fs9 : FS where
  stat := fun p =>
    if p = "r/a" then Except.ok StatKind.file else Except.error ErrorKind.notFound
  readLink := fun _ => Except.error ErrorKind.ioError
  detect := fun p =>
    if p = "r/a" then Except.ok "text/plain" else Except.error ErrorKind.ioError
  listDir := fun p =>
    if p = "r" then Except.ok [Except.ok "a", Except.error ErrorKind.ioError]
    else Except.error ErrorKind.notFound

/-! ## Properties of the byte order on names -/

theorem byteLtB_asymm : ∀ x y, byteLtB x y = true → byteLtB y x = false := by
  intro x
  induction x with
  | nil =>
    intro y h
    cases y with
    | nil => simp [byteLtB] at h
    | cons b bs => simp [byteLtB]
  | cons a as ih =>
    intro y h
    cases y with
    | nil => simp [byteLtB] at h
    | cons b bs =>
      simp only [byteLtB] at h ⊢
      by_cases hab : a < b
      · have hba : ¬ b < a := by omega
        simp [hab, hba]
      · by_cases hba : b < a
        · simp [hab, hba] at h
        · simp only [hab, hba, if_false] at h ⊢
          exact ih bs h

theorem byteLtB_total (x y : List Nat) : byteLtB x y = false ∨ byteLtB y x = false := by
  rcases Bool.eq_false_or_eq_true (byteLtB x y) with h | h
  · exact Or.inr (byteLtB_asymm x y h)
  · exact Or.inl h

theorem byteLtB_trans_neg :
    ∀ z x y, byteLtB z x = true → byteLtB z y = true ∨ byteLtB y x = true := by
  intro z
  induction z with
  | nil =>
    intro x y h
    cases x with
    | nil => simp [byteLtB] at h
    | cons a as =>
      cases y with
      | nil => exact Or.inr (by simp [byteLtB])
      | cons b bs => exact Or.inl (by simp [byteLtB])
  | cons c cs ih =>
    intro x y h
    cases x with
    | nil => simp [byteLtB] at h
    | cons a as =>
      cases y with
      | nil => exact Or.inr (by simp [byteLtB])
      | cons b bs =>
        simp only [byteLtB] at h
        by_cases hca : c < a
        · by_cases hcb : c < b
          · exact Or.inl (by simp [byteLtB, hcb])
          · have hba : b < a := by omega
            exact Or.inr (by simp [byteLtB, hba])
        · by_cases hac : a < c
          · simp [hca, hac] at h
          · simp only [hca, hac, if_false] at h
            by_cases hcb : c < b
            · exact Or.inl (by simp [byteLtB, hcb])
            · by_cases hbc : b < c
              · have hba : b < a := by omega
                exact Or.inr (by simp [byteLtB, hba])
              · rcases ih as bs h with h1 | h1
                · exact Or.inl (by simp [byteLtB, hcb, hbc, h1])
                · have h2 : ¬ b < a := by omega
                  have h3 : ¬ a < b := by omega
                  exact Or.inr (by simp [byteLtB, h2, h3, h1])

theorem byteLtB_antisymm : ∀ x y, byteLtB x y = false → byteLtB y x = false → x = y := by
  intro x
  induction x with
  | nil =>
    intro y h1 h2
    cases y with
    | nil => rfl
    | cons b bs => simp [byteLtB] at h1
  | cons a as ih =>
    intro y h1 h2
    cases y with
    | nil => simp [byteLtB] at h2
    | cons b bs =>
      simp only [byteLtB] at h1 h2
      by_cases hab : a < b
      · simp [hab] at h1
      · by_cases hba : b < a
        · simp [hab, hba] at h2
        · have hd : a = b := by omega
          simp only [hab, hba, if_false] at h1 h2
          rw [hd, ih bs h1 h2]

theorem char_toNat_injective : Function.Injective Char.toNat := by
  intro a b h
  exact Char.eq_of_val_eq (UInt32.ext h)

theorem byteKey_injective : Function.Injective byteKey := by
  intro x y h
  have hdata : x.data = y.data :=
    List.map_injective_iff.mpr char_toNat_injective h
  cases x
  cases y
  simp only [] at hdata
  rw [hdata]

instance : IsTotal Name nameLe :=
  ⟨fun x y => byteLtB_total (byteKey y) (byteKey x)⟩

instance : IsTrans Name nameLe := by
  refine ⟨fun x y z h1 h2 => ?_⟩
  have h1x : byteLtB (byteKey y) (byteKey x) = false := h1
  have h2x : byteLtB (byteKey z) (byteKey y) = false := h2
  show byteLtB (byteKey z) (byteKey x) = false
  rcases Bool.eq_false_or_eq_true (byteLtB (byteKey z) (byteKey x)) with h | h
  · rcases byteLtB_trans_neg (byteKey z) (byteKey x) (byteKey y) h with hc | hc
    · rw [h2x] at hc
      exact absurd hc (by simp)
    · rw [h1x] at hc
      exact absurd hc (by simp)
  · exact h

instance : IsAntisymm Name nameLe := by
  refine ⟨fun x y h1 h2 => ?_⟩
  have h1x : byteLtB (byteKey y) (byteKey x) = false := h1
  have h2x : byteLtB (byteKey x) (byteKey y) = false := h2
  exact byteKey_injective (byteLtB_antisymm (byteKey x) (byteKey y) h2x h1x)

/-! ## C3: the classifier is total and degrades failures to Invalid -/

/-- C3: `FSItem::new` always returns an item and never an error: when
`try_from_path` fails — because the `symlink_metadata` read fails, content
detection fails on a regular file, reading a link target fails, or the
object has an unsupported type — the resulting item's kind is
`Invalid{cause}` with `cause` the underlying error category, and when
`try_from_path` succeeds its item is returned as is. -/
theorem c3_classify_never_fails (fs : FS) (p : FsPath) :
    (∀ e, FSItem.try_from_path fs p = Except.error e →
      FSItem.new fs p = ⟨FSItemType.invalid e, baseName p, p, false⟩) ∧
    (∀ it, FSItem.try_from_path fs p = Except.ok it → FSItem.new fs p = it) ∧
    (∀ e, fs.stat p = Except.error e →
      FSItem.try_from_path fs p = Except.error e) ∧
    (∀ e, fs.stat p = Except.ok StatKind.file → fs.detect p = Except.error e →
      FSItem.try_from_path fs p = Except.error e) ∧
    (∀ e, fs.stat p = Except.ok StatKind.symlink →
      fs.readLink p = Except.error e →
      FSItem.try_from_path fs p = Except.error e) ∧
    (fs.stat p = Except.ok StatKind.other →
      FSItem.try_from_path fs p = Except.error ErrorKind.unsupported) := by
  refine ⟨?_, ?_, ?_, ?_, ?_, ?_⟩
  · intro e h
    simp [FSItem.new, h]
  · intro it h
    simp [FSItem.new, h]
  · intro e h
    simp [FSItem.try_from_path, h]
  · intro e h1 h2
    simp [FSItem.try_from_path, h1, h2]
  · intro e h1 h2
    simp [FSItem.try_from_path, h1, h2]
  · intro h
    simp [FSItem.try_from_path, h]

/-- Witness for C3 on `fs3`: classifying a missing path yields an Invalid
item with the not-found cause. -/
theorem c3_classify_never_fails_witness :
    FSItem.new fs3 "q" = ⟨FSItemType.invalid ErrorKind.notFound, "q", "q", false⟩ :=
  (c3_classify_never_fails fs3 "q").1 ErrorKind.notFound (by decide)

/-! ## C7: unlink resolves symlink chains and is the identity elsewhere -/

/-- C7: `FSItem::unlink` follows a symlink's target transitively while
`read_link` keeps succeeding; once the following loop stops at a path whose
link cannot be read any further (a non-symlink object), that path is
re-classified with `try_from_path` and returned.  For directory, file and
invalid items it returns the item itself unchanged. -/
theorem c7_unlink_follows_chain (fs : FS) (fuel : Nat) (it : FSItem) :
    (∀ t q, it.item_type = FSItemType.symLink t → followLinks fs fuel t = some q →
      FSItem.unlink fs fuel it = some (FSItem.try_from_path fs q)) ∧
    (it.item_type = FSItemType.directory →
      FSItem.unlink fs fuel it = some (Except.ok it)) ∧
    (∀ mt, it.item_type = FSItemType.file mt →
      FSItem.unlink fs fuel it = some (Except.ok it)) ∧
    (∀ p n q, followLinks fs n p = some q → ∃ e, fs.readLink q = Except.error e) := by
  refine ⟨?_, ?_, ?_, ?_⟩
  · intro t q h1 h2
    simp [FSItem.unlink, h1, h2]
  · intro h
    simp [FSItem.unlink, h]
  · intro mt h
    simp [FSItem.unlink, h]
  · intro p n
    induction n generalizing p with
    | zero => intro q h; simp [followLinks] at h
    | succ n ih =>
      intro q h
      simp only [followLinks] at h
      cases hr : fs.readLink p with
      | ok t =>
        rw [hr] at h
        exact ih t q h
      | error e =>
        rw [hr] at h
        simp only [Option.some.injEq] at h
        exact ⟨e, h ▸ hr⟩

/-- Witness for C7 on the chain `link1 → link2 → file.txt`: resolving
`link1` yields the classification of `file.txt`. -/
theorem c7_unlink_follows_chain_witness :
    FSItem.unlink fs7 3 (FSItem.new fs7 "link1") =
      some (Except.ok ⟨FSItemType.file "text/plain", "file.txt", "file.txt", true⟩) := by
  have h := (c7_unlink_follows_chain fs7 3 (FSItem.new fs7 "link1")).1
    "link2" "file.txt" (by decide) (by decide)
  exact h.trans (by decide)

/-! ## C1: cyclic symlink chains make resolution diverge (code bug) -/

/-- C1 (refuting the claimed bound): on the cyclic pair
`linkA → linkB → linkA`, the following loop of `FSItem::unlink` never
terminates — for every hop bound the loop is still running — so `unlink`
and `final_item_type` never produce a result, rather than failing with a
`SymlinkLoop` condition within a bounded number of hops (no such error
condition exists in the code). -/
theorem c1_cyclic_resolution_diverges :
    ∀ n, followLinks cycFS n "linkA" = none ∧ followLinks cycFS n "linkB" = none ∧
      FSItem.unlink cycFS n (FSItem.new cycFS "linkA") = none ∧
      FSItem.final_item_type cycFS n (FSItem.new cycFS "linkA") = none := by
  have key : ∀ n, followLinks cycFS n "linkA" = none ∧ followLinks cycFS n "linkB" = none := by
    intro n
    induction n with
    | zero => exact ⟨rfl, rfl⟩
    | succ n ih =>
      constructor
      · have h : followLinks cycFS (n + 1) "linkA" = followLinks cycFS n "linkB" := rfl
        rw [h]
        exact ih.2
      · have h : followLinks cycFS (n + 1) "linkB" = followLinks cycFS n "linkA" := rfl
        rw [h]
        exact ih.1
  intro n
  have hitem : FSItem.new cycFS "linkA" =
      ⟨FSItemType.symLink "linkB", "linkA", "linkA", true⟩ := by decide
  have hunlink : FSItem.unlink cycFS n (FSItem.new cycFS "linkA") = none := by
    rw [hitem]
    simp [FSItem.unlink, (key n).2]
  refine ⟨(key n).1, (key n).2, hunlink, ?_⟩
  rw [hitem] at hunlink ⊢
  simp [FSItem.final_item_type, hunlink]

/-! ## C9: an entry-iteration error panics instead of returning Err -/

/-- C9: when the child-entry iterator of a directory yields an error
mid-listing, the flattener panics (the `expect` on each iterator result)
instead of surfacing the error through its `io::Result` return value. -/
theorem c9_entry_iteration_error_panics :
    fs9.listDir "r" = Except.ok [Except.ok "a", Except.error ErrorKind.ioError] ∧
    FlattenedDirTree.new fs9 2 "r" = ROutcome.panic ∧
    (∀ e, FlattenedDirTree.new fs9 2 "r" ≠ ROutcome.err e) := by
  refine ⟨by decide, by decide, ?_⟩
  intro e
  cases e <;> decide

/-! ## C2: a child classification failure aborts the whole flatten call -/

/-- C2 counterexample: on `fs2`, the root `r` lists fine and its child `b`
is readable, but classifying the child `a` fails with a permission error,
and `FlattenedDirTree::new` returns that error for the whole call — it does
not produce a sequence with an `Invalid` entry for `a`, even though the
infallible classifier (unused by the flattener) would have produced exactly
that entry. -/
theorem c2_child_failure_counterexample :
    FlattenedDirTree.new fs2 2 "r" = ROutcome.err ErrorKind.permissionDenied ∧
    (∀ t, FlattenedDirTree.new fs2 2 "r" ≠ ROutcome.ok t) ∧
    FSItem.new fs2 "r/a" =
      ⟨FSItemType.invalid ErrorKind.permissionDenied, "a", "r/a", false⟩ := by
  have h1 : FlattenedDirTree.new fs2 2 "r" = ROutcome.err ErrorKind.permissionDenied := by
    decide
  refine ⟨h1, ?_, by decide⟩
  intro t ht
  rw [h1] at ht
  simp at ht

/-- C2 (amended): `read_dir` classifies each child with the fallible
`FSItem::try_from` and propagates its error with `?`, so a failure to
classify a child aborts the whole flatten call with that error instead of
degrading to an `Invalid` entry; only listing failures behave as the claim
says (an open failure is returned, a mid-iteration failure panics). -/
theorem c2_child_failure_aborts_flatten (fs : FS) (fuel level : Nat)
    (path : FsPath) (res : List (Except ErrorKind Name)) (names : List Name)
    (n : Name) (rest : List Name) (e : ErrorKind)
    (h1 : fs.listDir path = Except.ok res)
    (h2 : collectEntries res = some names)
    (h3 : sortedChildNames names = n :: rest)
    (h4 : FSItem.try_from_path fs (childPath path n) = Except.error e) :
    read_dir fs (fuel + 1) level path = ROutcome.err e := by
  simp [read_dir, h1, h2, h3, processChildren, h4]

/-- Witness for the amended C2 on `fs2`: the classification failure of the
first sorted child `a` is returned as the error of the whole walk. -/
theorem c2_child_failure_aborts_flatten_witness :
    read_dir fs2 1 0 "r" = ROutcome.err ErrorKind.permissionDenied :=
  c2_child_failure_aborts_flatten fs2 0 0 "r"
    [Except.ok "a", Except.ok "b"] ["a", "b"] "a" ["b"]
    ErrorKind.permissionDenied (by decide) (by decide) (by decide) (by decide)

/-! ## C8: reserved sentinel media types for directories and symlinks -/

/-- C8: `media_type` assigns directory items the reserved sentinel
`inode/directory` and symlink items the reserved sentinel `inode/symlink`;
the two sentinels are distinct, and — given that the content detector never
reports an inode sentinel (the sentinels are declared in `fsitem.rs`
precisely because `mimetype_detector` does not support them) — the media
type of any classified file entry differs from both sentinels, so entries
of every kind can be compared by media type alone. -/
theorem c8_sentinel_media_types (fs : FS) (t p : FsPath) (mt : MediaType)
    (hdet : ∀ q m, fs.detect q = Except.ok m → m ≠ INODE_DIR ∧ m ≠ INODE_SYMLINK)
    (hfile : (FSItem.new fs p).item_type = FSItemType.file mt) :
    FSItemType.media_type FSItemType.directory = DIRECTORY ∧
    DIRECTORY = INODE_DIR ∧
    FSItemType.media_type (FSItemType.symLink t) = SYMLINK ∧
    SYMLINK = INODE_SYMLINK ∧
    INODE_DIR ≠ INODE_SYMLINK ∧
    FSItemType.media_type ((FSItem.new fs p).item_type) ≠ DIRECTORY ∧
    FSItemType.media_type ((FSItem.new fs p).item_type) ≠ SYMLINK := by
  have hdet2 : fs.detect p = Except.ok mt := by
    unfold FSItem.new FSItem.try_from_path at hfile
    cases hs : fs.stat p with
    | error e => rw [hs] at hfile; simp at hfile
    | ok k =>
      rw [hs] at hfile
      cases k with
      | dir => simp at hfile
      | file =>
        cases hd : fs.detect p with
        | error e => rw [hd] at hfile; simp at hfile
        | ok m =>
          rw [hd] at hfile
          simp at hfile
          rw [hfile]
      | symlink =>
        cases hl : fs.readLink p with
        | error e => rw [hl] at hfile; simp at hfile
        | ok tgt => rw [hl] at hfile; simp at hfile
      | other => simp at hfile
  have hside := hdet p mt hdet2
  refine ⟨rfl, rfl, rfl, rfl, by decide, ?_, ?_⟩
  · rw [hfile]
    show mt ≠ DIRECTORY
    exact hside.1
  · rw [hfile]
    show mt ≠ SYMLINK
    exact hside.2

/-- Witness for C8 on `fs8`, whose detector always reports `text/plain`. -/
theorem c8_sentinel_media_types_witness :
    FSItemType.media_type FSItemType.directory = DIRECTORY ∧
    DIRECTORY = INODE_DIR ∧
    FSItemType.media_type (FSItemType.symLink "t") = SYMLINK ∧
    SYMLINK = INODE_SYMLINK ∧
    INODE_DIR ≠ INODE_SYMLINK ∧
    FSItemType.media_type ((FSItem.new fs8 "f").item_type) ≠ DIRECTORY ∧
    FSItemType.media_type ((FSItem.new fs8 "f").item_type) ≠ SYMLINK :=
  c8_sentinel_media_types fs8 "t" "f" "text/plain"
    (fun q m h => by
      simp only [fs8] at h
      simp at h
      rw [← h]
      exact ⟨by decide, by decide⟩)
    (by decide)

/-! ## Comparability: helper lemmas -/

theorem comparable_invalid_never (fs : FS) (lf : Nat) :
    ∀ n e x, FSItemType.comparable fs lf n (FSItemType.invalid e) x ≠ some true ∧
      FSItemType.comparable fs lf n x (FSItemType.invalid e) ≠ some true := by
  intro n
  induction n with
  | zero =>
    intro e x
    exact ⟨by simp [FSItemType.comparable], by simp [FSItemType.comparable]⟩
  | succ n ih =>
    intro e x
    constructor
    · cases x with
      | directory => simp [FSItemType.comparable]
      | file mt => simp [FSItemType.comparable]
      | invalid e2 => simp [FSItemType.comparable]
      | symLink q =>
        simp only [FSItemType.comparable]
        cases hr : resolveTargetType fs lf q with
        | none => simp
        | some r => simpa using (ih e r).2
    · cases x with
      | directory => simp [FSItemType.comparable]
      | file mt => simp [FSItemType.comparable]
      | invalid e2 => simp [FSItemType.comparable]
      | symLink q =>
        simp only [FSItemType.comparable]
        cases hr : resolveTargetType fs lf q with
        | none => simp
        | some r => simpa using (ih e r).2

theorem comparable_broken_placeholder (fs : FS) (lf : Nat) (e0 : ErrorKind)
    (hE : fs.stat "" = Except.error e0) :
    ∀ n x, FSItemType.comparable fs lf n BROKEN_LINK x ≠ some true ∧
      FSItemType.comparable fs lf n x BROKEN_LINK ≠ some true := by
  have hres : resolveTargetType fs lf "" = some (FSItemType.invalid e0) := by
    simp [resolveTargetType, FSItem.new, FSItem.try_from_path, hE,
      FSItem.final_item_type]
  intro n
  induction n with
  | zero =>
    intro x
    exact ⟨by simp [FSItemType.comparable], by simp [FSItemType.comparable]⟩
  | succ n ih =>
    intro x
    constructor
    · show FSItemType.comparable fs lf (n + 1) (FSItemType.symLink "") x ≠ some true
      simp only [FSItemType.comparable, hres]
      exact (comparable_invalid_never fs lf n e0 x).1
    · cases x with
      | directory =>
        show FSItemType.comparable fs lf (n + 1)
          FSItemType.directory (FSItemType.symLink "") ≠ some true
        simp only [FSItemType.comparable, hres]
        exact (comparable_invalid_never fs lf n e0 FSItemType.directory).1
      | file mt =>
        show FSItemType.comparable fs lf (n + 1)
          (FSItemType.file mt) (FSItemType.symLink "") ≠ some true
        simp only [FSItemType.comparable, hres]
        exact (comparable_invalid_never fs lf n e0 (FSItemType.file mt)).1
      | invalid e2 =>
        show FSItemType.comparable fs lf (n + 1)
          (FSItemType.invalid e2) (FSItemType.symLink "") ≠ some true
        simp only [FSItemType.comparable, hres]
        exact (comparable_invalid_never fs lf n e0 (FSItemType.invalid e2)).1
      | symLink q =>
        show FSItemType.comparable fs lf (n + 1)
          (FSItemType.symLink q) (FSItemType.symLink "") ≠ some true
        simp only [FSItemType.comparable]
        cases hr : resolveTargetType fs lf q with
        | none => simp
        | some r => simpa using (ih r).2

theorem followLinks_last_readLink_fails (fs : FS) :
    ∀ n p q, followLinks fs n p = some q → ∃ e, fs.readLink q = Except.error e := by
  intro n
  induction n with
  | zero => intro p q h; simp [followLinks] at h
  | succ n ih =>
    intro p q h
    simp only [followLinks] at h
    cases hr : fs.readLink p with
    | ok t =>
      simp only [hr] at h
      exact ih t q h
    | error e =>
      simp only [hr, Option.some.injEq] at h
      exact ⟨e, h ▸ hr⟩

/-- The resolution `comparable` performs on a symlink's target can only
yield a directory, a file, an `Invalid` type (target unclassifiable, the
one-hop broken link), the `BROKEN_LINK` placeholder (a dangling chain), or
no result at all (a cycle): `final_item_type` never returns a proper
symlink, because the following loop only stops where `read_link` fails. -/
theorem resolveTargetType_shapes (fs : FS) (lf : Nat) (p : FsPath) (r : FSItemType)
    (h : resolveTargetType fs lf p = some r) :
    r = FSItemType.directory ∨ (∃ mt, r = FSItemType.file mt) ∨
    (∃ e, r = FSItemType.invalid e) ∨ r = BROKEN_LINK := by
  unfold resolveTargetType FSItem.final_item_type at h
  cases hit : (FSItem.new fs p).item_type with
  | directory =>
    simp only [hit, Option.some.injEq] at h
    exact Or.inl h.symm
  | file mt =>
    simp only [hit, Option.some.injEq] at h
    exact Or.inr (Or.inl ⟨mt, h.symm⟩)
  | invalid e =>
    simp only [hit, Option.some.injEq] at h
    exact Or.inr (Or.inr (Or.inl ⟨e, h.symm⟩))
  | symLink t =>
    simp only [hit] at h
    cases hfl : followLinks fs lf t with
    | none =>
      simp only [FSItem.unlink, hit, hfl] at h
      simp at h
    | some q =>
      simp only [FSItem.unlink, hit, hfl] at h
      cases htf : FSItem.try_from_path fs q with
      | error e =>
        simp only [htf, Option.some.injEq] at h
        exact Or.inr (Or.inr (Or.inr h.symm))
      | ok item =>
        simp only [htf, Option.some.injEq] at h
        obtain ⟨e2, hre⟩ := followLinks_last_readLink_fails fs lf t q hfl
        unfold FSItem.try_from_path at htf
        cases hs : fs.stat q with
        | error e3 => rw [hs] at htf; simp at htf
        | ok k =>
          rw [hs] at htf
          cases k with
          | dir =>
            simp only [Except.ok.injEq] at htf
            rw [← h, ← htf]
            exact Or.inl rfl
          | file =>
            cases hd : fs.detect q with
            | error e4 => rw [hd] at htf; simp at htf
            | ok mt =>
              rw [hd] at htf
              simp only [Except.ok.injEq] at htf
              rw [← h, ← htf]
              exact Or.inr (Or.inl ⟨mt, rfl⟩)
          | symlink =>
            cases hl : fs.readLink q with
            | ok t2 => rw [hre] at hl; simp at hl
            | error e4 => rw [hl] at htf; simp at htf
          | other => simp at htf

theorem comparable_unresolved_symlink (fs : FS) (lf : Nat) (p : FsPath) (e0 : ErrorKind)
    (hE : fs.stat "" = Except.error e0)
    (hfail : ∀ mt, resolveTargetType fs lf p ≠ some FSItemType.directory ∧
      resolveTargetType fs lf p ≠ some (FSItemType.file mt)) :
    ∀ n x, FSItemType.comparable fs lf n (FSItemType.symLink p) x ≠ some true ∧
      FSItemType.comparable fs lf n x (FSItemType.symLink p) ≠ some true := by
  have hres : (∃ e1, resolveTargetType fs lf p = some (FSItemType.invalid e1)) ∨
      resolveTargetType fs lf p = some BROKEN_LINK ∨
      resolveTargetType fs lf p = none := by
    cases hc : resolveTargetType fs lf p with
    | none => exact Or.inr (Or.inr rfl)
    | some r =>
      rcases resolveTargetType_shapes fs lf p r hc with hr | ⟨mt, hr⟩ | ⟨e1, hr⟩ | hr
      · subst hr
        exact absurd hc (hfail "").1
      · subst hr
        exact absurd hc (hfail mt).2
      · subst hr
        exact Or.inl ⟨e1, rfl⟩
      · subst hr
        exact Or.inr (Or.inl rfl)
  intro n
  induction n with
  | zero =>
    intro x
    exact ⟨by simp [FSItemType.comparable], by simp [FSItemType.comparable]⟩
  | succ n ih =>
    intro x
    constructor
    · simp only [FSItemType.comparable]
      rcases hres with ⟨e1, hf⟩ | hf | hf
      · simp only [hf]
        exact (comparable_invalid_never fs lf n e1 x).1
      · simp only [hf]
        exact (comparable_broken_placeholder fs lf e0 hE n x).1
      · simp only [hf]
        simp
    · cases x with
      | symLink q =>
        simp only [FSItemType.comparable]
        cases hr : resolveTargetType fs lf q with
        | none => simp
        | some r => simpa using (ih r).2
      | directory =>
        simp only [FSItemType.comparable]
        rcases hres with ⟨e1, hf⟩ | hf | hf
        · simp only [hf]
          exact (comparable_invalid_never fs lf n e1 FSItemType.directory).1
        · simp only [hf]
          exact (comparable_broken_placeholder fs lf e0 hE n FSItemType.directory).1
        · simp only [hf]
          simp
      | file mt =>
        simp only [FSItemType.comparable]
        rcases hres with ⟨e1, hf⟩ | hf | hf
        · simp only [hf]
          exact (comparable_invalid_never fs lf n e1 (FSItemType.file mt)).1
        · simp only [hf]
          exact (comparable_broken_placeholder fs lf e0 hE n (FSItemType.file mt)).1
        · simp only [hf]
          simp
      | invalid e2 =>
        simp only [FSItemType.comparable]
        rcases hres with ⟨e1, hf⟩ | hf | hf
        · simp only [hf]
          exact (comparable_invalid_never fs lf n e1 (FSItemType.invalid e2)).1
        · simp only [hf]
          exact (comparable_broken_placeholder fs lf e0 hE n (FSItemType.invalid e2)).1
        · simp only [hf]
          simp

/-! ## C6: the comparability policy -/

/-- C6: `comparable` holds for two directories; holds for two files exactly
when their media types are equal; never holds between a directory and a
file; and never produces `true` when either side is an `Invalid` entry or a
symlink whose resolution fails — does not yield a real directory or file,
which covers the one-hop broken link (target unclassifiable, resolution
yields an `Invalid` type), the dangling longer chain (the broken-link
placeholder) and the cycle (no result) — for any recursion bound, given
that the empty placeholder path does not exist on the filesystem, as on a
real one. -/
theorem c6_comparability_policy (fs : FS) (lf n : Nat) (p : FsPath)
    (e0 e : ErrorKind) (mt1 mt2 : MediaType) (x : FSItemType)
    (hE : fs.stat "" = Except.error e0)
    (hfail : ∀ mt, resolveTargetType fs lf p ≠ some FSItemType.directory ∧
      resolveTargetType fs lf p ≠ some (FSItemType.file mt)) :
    FSItemType.comparable fs lf (n + 1) FSItemType.directory FSItemType.directory
      = some true ∧
    FSItemType.comparable fs lf (n + 1) (FSItemType.file mt1) (FSItemType.file mt2)
      = some (mt1 == mt2) ∧
    (FSItemType.comparable fs lf (n + 1) (FSItemType.file mt1) (FSItemType.file mt2)
      = some true ↔ mt1 = mt2) ∧
    FSItemType.comparable fs lf (n + 1) FSItemType.directory (FSItemType.file mt1)
      = some false ∧
    FSItemType.comparable fs lf (n + 1) (FSItemType.file mt1) FSItemType.directory
      = some false ∧
    FSItemType.comparable fs lf n (FSItemType.invalid e) x ≠ some true ∧
    FSItemType.comparable fs lf n x (FSItemType.invalid e) ≠ some true ∧
    FSItemType.comparable fs lf n (FSItemType.symLink p) x ≠ some true ∧
    FSItemType.comparable fs lf n x (FSItemType.symLink p) ≠ some true := by
  refine ⟨by simp [FSItemType.comparable], by simp [FSItemType.comparable], ?_,
    by simp [FSItemType.comparable], by simp [FSItemType.comparable],
    (comparable_invalid_never fs lf n e x).1,
    (comparable_invalid_never fs lf n e x).2,
    (comparable_unresolved_symlink fs lf p e0 hE hfail n x).1,
    (comparable_unresolved_symlink fs lf p e0 hE hfail n x).2⟩
  simp [FSItemType.comparable]

/-- Witness for C6 on `fs6`, at the paradigm one-hop broken link: the entry
classified at `loop` has kind `symLink "gone"`, the target `gone` does not
exist, so resolving it yields an `Invalid` type rather than a real object,
and the policy instances hold concretely. -/
theorem c6_comparability_policy_witness :
    (FSItem.new fs6 "loop").item_type = FSItemType.symLink "gone" ∧
    (FSItemType.comparable fs6 1 4 FSItemType.directory FSItemType.directory
      = some true ∧
    FSItemType.comparable fs6 1 4 (FSItemType.file "text/plain")
      (FSItemType.file "application/json") = some ("text/plain" == "application/json") ∧
    (FSItemType.comparable fs6 1 4 (FSItemType.file "text/plain")
      (FSItemType.file "application/json") = some true ↔
      ("text/plain" : MediaType) = "application/json") ∧
    FSItemType.comparable fs6 1 4 FSItemType.directory (FSItemType.file "text/plain")
      = some false ∧
    FSItemType.comparable fs6 1 4 (FSItemType.file "text/plain") FSItemType.directory
      = some false ∧
    FSItemType.comparable fs6 1 3 (FSItemType.invalid ErrorKind.ioError)
      FSItemType.directory ≠ some true ∧
    FSItemType.comparable fs6 1 3 FSItemType.directory
      (FSItemType.invalid ErrorKind.ioError) ≠ some true ∧
    FSItemType.comparable fs6 1 3 (FSItemType.symLink "gone")
      FSItemType.directory ≠ some true ∧
    FSItemType.comparable fs6 1 3 FSItemType.directory
      (FSItemType.symLink "gone") ≠ some true) :=
  ⟨by decide,
   c6_comparability_policy fs6 1 3 "gone" ErrorKind.notFound ErrorKind.ioError
     "text/plain" "application/json" FSItemType.directory
     (by decide)
     (fun mt => by
       have h : resolveTargetType fs6 1 "gone" =
           some (FSItemType.invalid ErrorKind.notFound) := by decide
       rw [h]
       exact ⟨by simp, by simp⟩)⟩

/-! ## C10: comparability is symmetric -/

theorem comparable_diverge_right (fs : FS) (lf : Nat) (p : FsPath)
    (hnone : resolveTargetType fs lf p = none) :
    ∀ n x, FSItemType.comparable fs lf n x (FSItemType.symLink p) = none ∧
      FSItemType.comparable fs lf n (FSItemType.symLink p) x = none := by
  intro n
  induction n with
  | zero => intro x; exact ⟨rfl, rfl⟩
  | succ n ih =>
    intro x
    constructor
    · cases x with
      | directory => simp [FSItemType.comparable, hnone]
      | file mt => simp [FSItemType.comparable, hnone]
      | invalid e => simp [FSItemType.comparable, hnone]
      | symLink q =>
        simp only [FSItemType.comparable]
        cases hr : resolveTargetType fs lf q with
        | none => simp
        | some r => simpa using (ih r).1
    · simp [FSItemType.comparable, hnone]

/-- C10: `comparable` is symmetric — with symlink resolution a fixed
function of the target path, exchanging the two argument kinds never
changes the result, for every recursion bound. -/
theorem c10_comparable_symmetric (fs : FS) (lf : Nat) :
    ∀ n a b, FSItemType.comparable fs lf n a b = FSItemType.comparable fs lf n b a := by
  intro n
  induction n using Nat.strong_induction_on with
  | _ n ih =>
    intro a b
    cases n with
    | zero => rfl
    | succ m =>
      cases a with
      | directory =>
        cases b with
        | directory => rfl
        | file mt => simp [FSItemType.comparable]
        | invalid e => simp [FSItemType.comparable]
        | symLink p =>
          cases hr : resolveTargetType fs lf p <;> simp [FSItemType.comparable, hr]
      | file mt1 =>
        cases b with
        | directory => simp [FSItemType.comparable]
        | file mt2 =>
          simp only [FSItemType.comparable, Option.some.injEq]
          by_cases h : mt1 = mt2
          · rw [h]
          · have h1 : (mt1 == mt2) = false := by
              simp [h]
            have h2 : (mt2 == mt1) = false := by
              simp [Ne.symm h]
            rw [h1, h2]
        | invalid e => simp [FSItemType.comparable]
        | symLink p =>
          cases hr : resolveTargetType fs lf p <;> simp [FSItemType.comparable, hr]
      | invalid e =>
        cases b with
        | directory => simp [FSItemType.comparable]
        | file mt => simp [FSItemType.comparable]
        | invalid e2 => rfl
        | symLink p =>
          cases hr : resolveTargetType fs lf p <;> simp [FSItemType.comparable, hr]
      | symLink p =>
        cases b with
        | directory =>
          cases hr : resolveTargetType fs lf p <;> simp [FSItemType.comparable, hr]
        | file mt =>
          cases hr : resolveTargetType fs lf p <;> simp [FSItemType.comparable, hr]
        | invalid e =>
          cases hr : resolveTargetType fs lf p <;> simp [FSItemType.comparable, hr]
        | symLink q =>
          cases hp : resolveTargetType fs lf p with
          | none =>
            cases hq : resolveTargetType fs lf q with
            | none => simp [FSItemType.comparable, hp, hq]
            | some rq =>
              have hx := (comparable_diverge_right fs lf p hp m rq).1
              simp [FSItemType.comparable, hp, hq, hx]
          | some rp =>
            cases hq : resolveTargetType fs lf q with
            | none =>
              have hx := (comparable_diverge_right fs lf q hq m rp).1
              simp [FSItemType.comparable, hp, hq, hx]
            | some rq =>
              have hL : FSItemType.comparable fs lf (m + 1)
                  (FSItemType.symLink p) (FSItemType.symLink q) =
                  FSItemType.comparable fs lf m rp (FSItemType.symLink q) := by
                simp [FSItemType.comparable, hp]
              have hR : FSItemType.comparable fs lf (m + 1)
                  (FSItemType.symLink q) (FSItemType.symLink p) =
                  FSItemType.comparable fs lf m rq (FSItemType.symLink p) := by
                simp [FSItemType.comparable, hq]
              rw [hL, hR]
              cases m with
              | zero => rfl
              | succ k =>
                have s1 : FSItemType.comparable fs lf (k + 1) rp (FSItemType.symLink q) =
                    FSItemType.comparable fs lf (k + 1) (FSItemType.symLink q) rp :=
                  ih (k + 1) (by omega) rp (FSItemType.symLink q)
                have s2 : FSItemType.comparable fs lf (k + 1) (FSItemType.symLink q) rp =
                    FSItemType.comparable fs lf k rq rp := by
                  simp [FSItemType.comparable, hq]
                have s3 : FSItemType.comparable fs lf k rq rp =
                    FSItemType.comparable fs lf k rp rq :=
                  ih k (by omega) rq rp
                have s4 : FSItemType.comparable fs lf (k + 1) (FSItemType.symLink p) rq =
                    FSItemType.comparable fs lf k rp rq := by
                  simp [FSItemType.comparable, hp]
                have s5 : FSItemType.comparable fs lf (k + 1) (FSItemType.symLink p) rq =
                    FSItemType.comparable fs lf (k + 1) rq (FSItemType.symLink p) :=
                  ih (k + 1) (by omega) (FSItemType.symLink p) rq
                rw [s1, s2, s3, ← s4, s5]

/-! ## C5: children are enumerated in a deterministic byte order -/

/-- C5: the flattener processes a directory's immediate children sorted by
name under the total, locale-independent byte order `nameLe` (under which
`"C" < "a" < "b"`, so the order is not case-insensitive and not
locale-dependent): the sorted sequence is ordered and is a permutation of
the listing, any two listings that are permutations of one another produce
the identical sorted sequence (so repeated runs and structurally identical
trees at different roots enumerate children in the same relative order),
and `read_dir` walks exactly that sorted sequence. -/
theorem c5_children_sorted_deterministic (fs : FS) (fuel level : Nat) (p : FsPath)
    (res : List (Except ErrorKind Name)) (names names2 : List Name)
    (h1 : fs.listDir p = Except.ok res)
    (h2 : collectEntries res = some names)
    (hperm : names.Perm names2) :
    List.Sorted nameLe (sortedChildNames names) ∧
    (sortedChildNames names).Perm names ∧
    sortedChildNames names = sortedChildNames names2 ∧
    read_dir fs (fuel + 1) level p =
      processChildren fs (read_dir fs fuel) level p (sortedChildNames names) := by
  refine ⟨?_, ?_, ?_, ?_⟩
  · exact List.sorted_insertionSort nameLe names
  · exact List.perm_insertionSort nameLe names
  · exact List.eq_of_perm_of_sorted
      ((List.perm_insertionSort nameLe names).trans
        (hperm.trans (List.perm_insertionSort nameLe names2).symm))
      (List.sorted_insertionSort nameLe names)
      (List.sorted_insertionSort nameLe names2)
  · simp [read_dir, h1, h2]

/-- Witness for C5 on `fs5`: the mixed-case listing `["b", "a", "C"]` is
walked in the fixed byte order `["C", "a", "b"]`, the same as for the
permuted listing `["a", "C", "b"]`. -/
theorem c5_children_sorted_deterministic_witness :
    sortedChildNames ["b", "a", "C"] = ["C", "a", "b"] ∧
    (List.Sorted nameLe (sortedChildNames ["b", "a", "C"]) ∧
     (sortedChildNames ["b", "a", "C"]).Perm ["b", "a", "C"] ∧
     sortedChildNames ["b", "a", "C"] = sortedChildNames ["a", "C", "b"] ∧
     read_dir fs5 1 0 "r" =
       processChildren fs5 (read_dir fs5 0) 0 "r" (sortedChildNames ["b", "a", "C"])) :=
  ⟨by decide,
   c5_children_sorted_deterministic fs5 0 0 "r"
     [Except.ok "b", Except.ok "a", Except.ok "C"] ["b", "a", "C"] ["a", "C", "b"]
     (by decide) (by decide) (by decide)⟩

/-! ## C4: the flattened sequence is an interleaved pre-order with depths -/

theorem processChildren_ok_flattening (fs : FS) (fuel : Nat)
    (hrec : ∀ level path items, read_dir fs fuel level path = ROutcome.ok items →
      PreorderFlattening fs level path items) :
    ∀ names level path items,
      processChildren fs (read_dir fs fuel) level path names = ROutcome.ok items →
      ChildrenFlattening fs level path names items := by
  intro names
  induction names with
  | nil =>
    intro level path items h
    simp only [processChildren] at h
    simp only [ROutcome.ok.injEq] at h
    rw [← h]
    exact ChildrenFlattening.nil level path
  | cons n rest ih =>
    intro level path items h
    simp only [processChildren] at h
    cases htf : FSItem.try_from_path fs (childPath path n) with
    | error e => simp only [htf] at h; simp at h
    | ok item =>
      simp only [htf] at h
      by_cases hdir : item.item_type = FSItemType.directory
      · rw [if_pos hdir] at h
        cases hsub : read_dir fs fuel (level + 1) (childPath path n) with
        | ok sub =>
          simp only [hsub] at h
          cases htail : processChildren fs (read_dir fs fuel) level path rest with
          | ok tail =>
            simp only [htail, ROutcome.ok.injEq] at h
            rw [← h]
            exact ChildrenFlattening.dirChild level path n rest item sub tail
              htf hdir (hrec _ _ _ hsub) (ih level path tail htail)
          | err e => simp only [htail] at h; simp at h
          | panic => simp only [htail] at h; simp at h
          | diverge => simp only [htail] at h; simp at h
        | err e => simp only [hsub] at h; simp at h
        | panic => simp only [hsub] at h; simp at h
        | diverge => simp only [hsub] at h; simp at h
      · rw [if_neg hdir] at h
        cases htail : processChildren fs (read_dir fs fuel) level path rest with
        | ok tail =>
          simp only [htail, ROutcome.ok.injEq] at h
          rw [← h]
          exact ChildrenFlattening.leafChild level path n rest item tail
            htf hdir (ih level path tail htail)
        | err e => simp only [htail] at h; simp at h
        | panic => simp only [htail] at h; simp at h
        | diverge => simp only [htail] at h; simp at h

theorem read_dir_ok_flattening (fs : FS) :
    ∀ fuel level path items, read_dir fs fuel level path = ROutcome.ok items →
      PreorderFlattening fs level path items := by
  intro fuel
  induction fuel with
  | zero => intro level path items h; simp [read_dir] at h
  | succ fuel ih =>
    intro level path items h
    simp only [read_dir] at h
    cases hl : fs.listDir path with
    | error e => simp only [hl] at h; simp at h
    | ok res =>
      simp only [hl] at h
      cases hc : collectEntries res with
      | none => simp only [hc] at h; simp at h
      | some names =>
        simp only [hc] at h
        exact PreorderFlattening.mk level path res names items hl hc
          (processChildren_ok_flattening fs fuel ih (sortedChildNames names)
            level path items h)

/-- C4: every sequence `FlattenedDirTree::new` produces successfully is an
interleaved pre-order flattening: the root's direct children appear at
depth 0, every entry that classifies as a directory at depth `d` is
immediately followed by its own flattened children at depth `d + 1`, and
the subsequent siblings continue at depth `d`. -/
theorem c4_flatten_is_preorder (fs : FS) (fuel : Nat) (root : FsPath)
    (t : FlattenedDirTree)
    (h : FlattenedDirTree.new fs fuel root = ROutcome.ok t) :
    PreorderFlattening fs 0 root t.items := by
  unfold FlattenedDirTree.new at h
  cases hr : read_dir fs fuel 0 root with
  | ok items =>
    simp only [hr, ROutcome.ok.injEq] at h
    rw [← h]
    exact read_dir_ok_flattening fs fuel 0 root items hr
  | err e => simp only [hr] at h; simp at h
  | panic => simp only [hr] at h; simp at h
  | diverge => simp only [hr] at h; simp at h

/-- Witness for C4 on the two-level tree of `fs4`: the subdirectory entry
`a` at depth 0 is immediately followed by its child `x` at depth 1, and the
sibling `b` returns to depth 0. -/
theorem c4_flatten_is_preorder_witness :
    PreorderFlattening fs4 0 "r"
      [(0, ⟨FSItemType.directory, "a", "r/a", true⟩),
       (1, ⟨FSItemType.file "text/plain", "x", "r/a/x", true⟩),
       (0, ⟨FSItemType.file "text/plain", "b", "r/b", true⟩)] :=
  c4_flatten_is_preorder fs4 3 "r"
    ⟨"r", [(0, ⟨FSItemType.directory, "a", "r/a", true⟩),
           (1, ⟨FSItemType.file "text/plain", "x", "r/a/x", true⟩),
           (0, ⟨FSItemType.file "text/plain", "b", "r/b", true⟩)]⟩
    (by decide)

end Cocomo
